import Mathlib

/-!
Verification of teavpn2's Linux interface helpers
(`src/.old/src/.teavpn2/helpers/linux/iface.c`): the TUN device allocator
(`tun_alloc`, `tun_set_queue`) and the interface configurator
(`raise_up_iface`).

The C code runs on a little-endian Linux host (x86-64): `inet_pton` stores
the four octets of a dotted quad in network byte order in memory, and the
32-bit register value of that memory word on a little-endian host places the
first octet in the least-significant byte.  All 32-bit arithmetic below is
on that host register value, as `Nat` with explicit reduction mod 2^32 where
the C code would wrap.
-/

/-- Digit value of a decimal digit character; `none` for any other
character. -/
def charToDigit (c : Char) : Option Nat :=
  if c = '0' then some 0
  else if c = '1' then some 1
  else if c = '2' then some 2
  else if c = '3' then some 3
  else if c = '4' then some 4
  else if c = '5' then some 5
  else if c = '6' then some 6
  else if c = '7' then some 7
  else if c = '8' then some 8
  else if c = '9' then some 9
  else none

/-- The decimal digit character of a value below ten. -/
def digitChar : Nat → Char
  | 0 => '0'
  | 1 => '1'
  | 2 => '2'
  | 3 => '3'
  | 4 => '4'
  | 5 => '5'
  | 6 => '6'
  | 7 => '7'
  | 8 => '8'
  | 9 => '9'
  | _ => '*'

/-- Modelled from the spec: one octet of a dotted quad as `inet_pton(AF_INET, ...)`
(libc, outside this repository's files) accepts it: one to three decimal
digits, no leading zero except the single digit `0`, value at most 255. -/
def parseOctet : List Char → Option Nat
  | [c] => charToDigit c
  | [c1, c2] =>
    match charToDigit c1, charToDigit c2 with
    | some d1, some d2 => if d1 = 0 then none else some (10 * d1 + d2)
    | _, _ => none
  | [c1, c2, c3] =>
    match charToDigit c1, charToDigit c2, charToDigit c3 with
    | some d1, some d2, some d3 =>
      if d1 = 0 then none
      else if 100 * d1 + 10 * d2 + d3 ≤ 255 then
        some (100 * d1 + 10 * d2 + d3)
      else none
    | _, _, _ => none
  | _ => none

/-- Modelled from the spec: one octet as `inet_ntop(AF_INET, ...)` renders it,
in decimal with no leading zeros (printf `%u` of a value below 256). -/
def renderOctet (n : Nat) : List Char :=
  if n < 10 then [digitChar n]
  else if n < 100 then [digitChar (n / 10), digitChar (n % 10)]
  else [digitChar (n / 100), digitChar (n / 10 % 10), digitChar (n % 10)]

/-- Split a character list at every period. -/
def splitOnDot : List Char → List (List Char)
  | [] => [[]]
  | c :: rest =>
    if c = '.' then [] :: splitOnDot rest
    else
      match splitOnDot rest with
      | [] => [[c]]
      | p :: ps => (c :: p) :: ps

/-- Join character lists with periods between them. -/
def joinDots : List (List Char) → List Char
  | [] => []
  | [p] => p
  | p :: ps => p ++ '.' :: joinDots ps

/-- Modelled from the spec: `inet_pton(AF_INET, s, out)` (libc, outside this
repository's files).  Accepts exactly four octets separated by periods and
yields the 32-bit value of the stored word as read by a little-endian host
register: first octet in the least-significant byte. -/
def inet_pton (s : String) : Option Nat :=
  match splitOnDot s.data with
  | [p1, p2, p3, p4] =>
    match parseOctet p1, parseOctet p2, parseOctet p3, parseOctet p4 with
    | some o1, some o2, some o3, some o4 =>
      some (o1 + 256 * o2 + 65536 * o3 + 16777216 * o4)
    | _, _, _, _ => none
  | _ => none

/-- Modelled from the spec: `inet_ntop(AF_INET, v, ...)` (libc, outside this
repository's files) on the little-endian host value `v`: the memory bytes in
address order are `v % 256, v / 256 % 256, v / 65536 % 256, v / 16777216 % 256`,
rendered as a dotted quad. -/
def inet_ntop (v : Nat) : String :=
  ⟨joinDots [renderOctet (v % 256), renderOctet (v / 256 % 256),
             renderOctet (v / 65536 % 256), renderOctet (v / 16777216 % 256)]⟩

/-- Bitwise complement of a 32-bit register value (the C `~` on `__be32`). -/
def compl32 (x : Nat) : Nat := Nat.xor x 4294967295

/-- The netmask-to-CIDR loop of `raise_up_iface`, iface.c lines 141-146:
`while (tmp) { cidr++; tmp >>= 1; }` on a 32-bit value.  A 32-bit register
reaches zero after at most 32 halvings, so fuel 32 computes the loop exactly
for every value below 2^32. -/
def cidr_loopAux : Nat → Nat → Nat
  | 0, _ => 0
  | fuel + 1, n => if n = 0 then 0 else cidr_loopAux fuel (n / 2) + 1

/-- Number of iterations of the `raise_up_iface` shift loop: the bit length
of the 32-bit value. -/
def cidr_loop (n : Nat) : Nat := cidr_loopAux 32 n

/-- The number of set bits among the 32 bits of `v`: what the spec calls the
number of set bits of the network-order mask (a popcount is the same in
either byte order). -/
def popCount32 (v : Nat) : Nat :=
  ((List.range 32).filter (fun i => v.testBit i)).length

/-- Modelled from the spec: `escapeshellarg` (helpers/string.c, outside this
repository's files): shell-argument-safe quoting; the argument is wrapped in
single quotes and every embedded single quote (character 39) is closed,
backslash-escaped and reopened. -/
def escapeshellarg (s : String) : String :=
  "'" ++ String.join (s.data.map fun c =>
    if c.toNat = 39 then "'\\''" else String.singleton c) ++ "'"

/-- iface.c lines 99-102: escape a whole C string. -/
def simple_esc_arg (s : String) : String := escapeshellarg s

/-- The fields of `struct srv_iface_cfg` that `raise_up_iface` reads:
`dev`, `ipv4`, `ipv4_netmask` (strings) and `mtu` (a 16-bit unsigned). -/
structure SrvIfaceCfg where
  dev : String
  ipv4 : String
  ipv4_netmask : String
  mtu : Nat
deriving DecidableEq

/-- The local values `raise_up_iface` derives before any command runs,
iface.c lines 133-192: the parsed 32-bit values, the CIDR count, and the
rendered strings (the CIDR suffix already appended where the source appends
it).  `u_ipv4_network` is computed and rendered by the source even though no
command uses it. -/
structure Derived where
  b_ipv4 : Nat
  b_ipv4_netmask : Nat
  b_ipv4_network : Nat
  b_ipv4_broadcast : Nat
  cidr : Nat
  u_ipv4 : String
  u_ipv4_network : String
  u_ipv4_broadcast : String
deriving DecidableEq

/-- iface.c lines 133-192: parse the netmask, derive the CIDR count, parse
the address, and derive network and broadcast.  `none` is every early
`return false` of that span.  The `strncpy` copies into the local buffers
are the identity here: their bound `IPV4SAFE - 1` is at least 31 characters
and every string `inet_pton` accepts has at most 15, so the truncation can
never alter a parse that succeeds. -/
def derive (iface : SrvIfaceCfg) : Option Derived :=
  match inet_pton iface.ipv4_netmask with
  | none => none
  | some b_ipv4_netmask =>
    let cidr := cidr_loop b_ipv4_netmask
    if cidr > 32 then none
    else
      match inet_pton iface.ipv4 with
      | none => none
      | some b_ipv4 =>
        let u_ipv4 := iface.ipv4 ++ "/" ++ toString cidr
        let b_ipv4_network := Nat.land b_ipv4 b_ipv4_netmask
        let b_ipv4_broadcast := Nat.lor b_ipv4_network (compl32 b_ipv4_netmask)
        let u_ipv4_network := inet_ntop b_ipv4_network ++ "/" ++ toString cidr
        let u_ipv4_broadcast := inet_ntop b_ipv4_broadcast
        some ⟨b_ipv4, b_ipv4_netmask, b_ipv4_network, b_ipv4_broadcast,
              cidr, u_ipv4, u_ipv4_network, u_ipv4_broadcast⟩

/-- What a `raise_up_iface` call did: its boolean result, the command lines
passed to `system` in order, and the configuration struct as it stands when
the call returns (the source never writes through the `iface` pointer). -/
structure RaiseResult where
  ok : Bool
  cmds : List String
  iface : SrvIfaceCfg
deriving DecidableEq

/-- iface.c lines 105-209, `raise_up_iface`.  `ex` is the external command
surface (`system`): it maps a fully built command line to an integer status,
negative meaning failure.  The two `EXEC_CMD` command shapes are the
`snprintf` templates of lines 199 and 204; each embedded string is the
escaped form produced at lines 194-197 (`u_ipv4_network` is escaped there
too, into a buffer no command reads). -/
def raise_up_iface (ex : String → Int) (iface : SrvIfaceCfg) : RaiseResult :=
  match derive iface with
  | none => ⟨false, [], iface⟩
  | some d =>
    let _e_ipv4_network := simple_esc_arg d.u_ipv4_network
    let e_ipv4_broadcast := simple_esc_arg d.u_ipv4_broadcast
    let e_dev := simple_esc_arg iface.dev
    let e_ipv4 := simple_esc_arg d.u_ipv4
    let cmd1 := "/sbin/ip link set dev " ++ e_dev ++ " up mtu " ++ toString iface.mtu
    if ex cmd1 < 0 then ⟨false, [cmd1], iface⟩
    else
      let cmd2 := "/sbin/ip addr add dev " ++ e_dev ++ " " ++ e_ipv4 ++
                  " broadcast " ++ e_ipv4_broadcast
      if ex cmd2 < 0 then ⟨false, [cmd1, cmd2], iface⟩
      else ⟨true, [cmd1, cmd2], iface⟩

/-- Result of the device-node `open`: a file descriptor or an errno. -/
inductive OpenRes where
  | ok (fd : Nat)
  | err (errno : Nat)
deriving DecidableEq

/-- The kernel surface `tun_alloc` drives: `open` on a device-node path, and
the `TUNSETIFF` ioctl on (fd, interface name, flags). -/
structure TunEnv where
  openDev : String → OpenRes
  ioctlSetIff : Nat → String → Int → Int

/-- The function-static state of `tun_alloc`, iface.c lines 28-29:
`static bool retried` and `static const char *tun_dev`. -/
structure TunState where
  retried : Bool
  tun_dev : String
deriving DecidableEq

/-- The static initializers: `retried = false`, `tun_dev = "/dev/net/tun"`. -/
def initTunState : TunState := ⟨false, "/dev/net/tun"⟩

/-- What a `tun_alloc` call did: its return value, the static state when it
returns, the paths passed to `open` in order, and the descriptors passed to
`close`. -/
structure TunResult where
  ret : Int
  state : TunState
  opens : List String
  closes : List Nat
deriving DecidableEq

/-- iface.c lines 25-70, `tun_alloc`, with explicit fuel for the one
self-recursive retry.  The recursion only happens while `retried` is false
and the recursive call runs with `retried` true, so the depth is at most
two and fuel 2 is exact.  `-22` is `-EINVAL`; errno 2 is `ENOENT`; `open`
returns `-1` on failure; `strncpy(ifr.ifr_name, dev, IFNAMSIZ - 1)` copies
at most 15 characters of the name. -/
def tun_allocAux (env : TunEnv) (dev : String) (flags : Int) :
    Nat → TunState → TunResult
  | 0, s => ⟨-1, s, [], []⟩
  | fuel + 1, s =>
    if dev = "" then ⟨-22, s, [], []⟩
    else
      match env.openDev s.tun_dev with
      | .err e =>
        if s.retried = false ∧ e = 2 then
          let r := tun_allocAux env dev flags fuel ⟨true, "/dev/tun"⟩
          ⟨r.ret, r.state, s.tun_dev :: r.opens, r.closes⟩
        else ⟨-1, s, [s.tun_dev], []⟩
      | .ok fd =>
        let rv := env.ioctlSetIff fd (dev.take 15) flags
        if rv < 0 then ⟨rv, s, [s.tun_dev], [fd]⟩
        else ⟨(fd : Int), s, [s.tun_dev], []⟩

/-- `tun_alloc` as called: fuel 2 covers the single possible retry. -/
def tun_alloc (env : TunEnv) (dev : String) (flags : Int) (s : TunState) :
    TunResult :=
  tun_allocAux env dev flags 2 s

/-- States of the `tun_alloc` statics after each call of a call sequence. -/
def tun_runStates : List (TunEnv × String × Int) → TunState → List TunState
  | [], _ => []
  | c :: rest, s =>
    let s2 := (tun_alloc c.1 c.2.1 c.2.2 s).state
    s2 :: tun_runStates rest s2

/-- How many steps of a state trace change the device-node path. -/
def pathChanges : TunState → List TunState → Nat
  | _, [] => 0
  | s, t :: ts => (if t.tun_dev = s.tun_dev then 0 else 1) + pathChanges t ts

/-- A command environment that accepts both external commands. -/
def cfgA : SrvIfaceCfg := ⟨"teavpn0", "10.0.0.1", "255.0.0.0", 1500⟩

/-- The derived values of `cfgA`: little-endian host values of 10.0.0.1 and
255.0.0.0, their network 10.0.0.0 and broadcast 10.255.255.255, CIDR 8. -/
def dA : Derived :=
  ⟨16777226, 255, 10, 4294967050, 8, "10.0.0.1/8", "10.0.0.0/8",
   "10.255.255.255"⟩

/-- A kernel surface whose `open` always yields descriptor 3 and whose
ioctl accepts. -/
def envOk3 : TunEnv := ⟨fun _ => OpenRes.ok 3, fun _ _ _ => 0⟩

/-- A kernel surface where the primary node is absent (`ENOENT`) and the
legacy node opens as descriptor 3 with an accepting ioctl. -/
def envNoPrimary : TunEnv :=
  ⟨fun p => if p = "/dev/net/tun" then OpenRes.err 2 else OpenRes.ok 3,
   fun _ _ _ => 0⟩

theorem charToDigit_spec (c : Char) (d : Nat) (h : charToDigit c = some d) :
    digitChar d = c ∧ d ≤ 9 := by
  unfold charToDigit at h
  split_ifs at h
  all_goals injection h with h
  all_goals subst h
  all_goals subst_vars
  all_goals exact ⟨rfl, by omega⟩

theorem parseOctet_le (p : List Char) (o : Nat) (h : parseOctet p = some o) :
    o ≤ 255 := by
  match p with
  | [] => cases h
  | [c] =>
    have := charToDigit_spec c o h
    omega
  | [c1, c2] =>
    simp only [parseOctet] at h
    cases h1 : charToDigit c1 with
    | none => rw [h1] at h; cases h
    | some d1 =>
      cases h2 : charToDigit c2 with
      | none => rw [h1, h2] at h; cases h
      | some d2 =>
        rw [h1, h2] at h
        dsimp only at h
        obtain ⟨e1, l1⟩ := charToDigit_spec c1 d1 h1
        obtain ⟨e2, l2⟩ := charToDigit_spec c2 d2 h2
        split_ifs at h
        injection h with h
        omega
  | [c1, c2, c3] =>
    simp only [parseOctet] at h
    cases h1 : charToDigit c1 with
    | none => rw [h1] at h; cases h
    | some d1 =>
      cases h2 : charToDigit c2 with
      | none => rw [h1, h2] at h; cases h
      | some d2 =>
        cases h3 : charToDigit c3 with
        | none => rw [h1, h2, h3] at h; cases h
        | some d3 =>
          rw [h1, h2, h3] at h
          dsimp only at h
          obtain ⟨e1, l1⟩ := charToDigit_spec c1 d1 h1
          obtain ⟨e2, l2⟩ := charToDigit_spec c2 d2 h2
          obtain ⟨e3, l3⟩ := charToDigit_spec c3 d3 h3
          split_ifs at h
          injection h with h
          omega
  | c1 :: c2 :: c3 :: c4 :: rest => cases h

theorem renderOctet_parse (p : List Char) (o : Nat)
    (h : parseOctet p = some o) : renderOctet o = p := by
  match p with
  | [] => cases h
  | [c] =>
    obtain ⟨hc, hle⟩ := charToDigit_spec c o h
    unfold renderOctet
    rw [if_pos (by omega), hc]
  | [c1, c2] =>
    simp only [parseOctet] at h
    cases h1 : charToDigit c1 with
    | none => rw [h1] at h; cases h
    | some d1 =>
      cases h2 : charToDigit c2 with
      | none => rw [h1, h2] at h; cases h
      | some d2 =>
        rw [h1, h2] at h
        dsimp only at h
        obtain ⟨e1, l1⟩ := charToDigit_spec c1 d1 h1
        obtain ⟨e2, l2⟩ := charToDigit_spec c2 d2 h2
        split_ifs at h with hz
        injection h with h
        subst h
        have hq : (10 * d1 + d2) / 10 = d1 := by omega
        have hr : (10 * d1 + d2) % 10 = d2 := by omega
        unfold renderOctet
        rw [if_neg (by omega), if_pos (by omega), hq, hr, e1, e2]
  | [c1, c2, c3] =>
    simp only [parseOctet] at h
    cases h1 : charToDigit c1 with
    | none => rw [h1] at h; cases h
    | some d1 =>
      cases h2 : charToDigit c2 with
      | none => rw [h1, h2] at h; cases h
      | some d2 =>
        cases h3 : charToDigit c3 with
        | none => rw [h1, h2, h3] at h; cases h
        | some d3 =>
          rw [h1, h2, h3] at h
          dsimp only at h
          obtain ⟨e1, l1⟩ := charToDigit_spec c1 d1 h1
          obtain ⟨e2, l2⟩ := charToDigit_spec c2 d2 h2
          obtain ⟨e3, l3⟩ := charToDigit_spec c3 d3 h3
          split_ifs at h with hz hle
          injection h with h
          subst h
          have hq : (100 * d1 + 10 * d2 + d3) / 100 = d1 := by omega
          have hm : (100 * d1 + 10 * d2 + d3) / 10 % 10 = d2 := by omega
          have hr : (100 * d1 + 10 * d2 + d3) % 10 = d3 := by omega
          unfold renderOctet
          rw [if_neg (by omega), if_neg (by omega), hq, hm, hr, e1, e2, e3]
  | c1 :: c2 :: c3 :: c4 :: rest => cases h

theorem splitOnDot_ne_nil (cs : List Char) : splitOnDot cs ≠ [] := by
  cases cs with
  | nil => simp [splitOnDot]
  | cons c rest =>
    unfold splitOnDot
    split_ifs
    · simp
    · cases h : splitOnDot rest with
      | nil => simp
      | cons p ps => simp

theorem joinDots_cons_cons (c : Char) (p : List Char)
    (ps : List (List Char)) :
    joinDots ((c :: p) :: ps) = c :: joinDots (p :: ps) := by
  cases ps <;> rfl

theorem joinDots_splitOnDot (cs : List Char) :
    joinDots (splitOnDot cs) = cs := by
  induction cs with
  | nil => rfl
  | cons c rest ih =>
    unfold splitOnDot
    split_ifs with hc
    · subst hc
      cases h : splitOnDot rest with
      | nil => exact absurd h (splitOnDot_ne_nil rest)
      | cons p ps =>
        rw [h] at ih
        show '.' :: joinDots (p :: ps) = '.' :: rest
        rw [ih]
    · cases h : splitOnDot rest with
      | nil => exact absurd h (splitOnDot_ne_nil rest)
      | cons p ps =>
        rw [h] at ih
        rw [joinDots_cons_cons, ih]

/-- C9: for every valid dotted-quad IPv4 literal, parsing it to a 32-bit
integer (`inet_pton`, as `raise_up_iface` calls it at lines 133 and 156)
and rendering that integer back to text (`inet_ntop`, lines 176 and 185)
yields the original literal. -/
theorem inet_pton_ntop_roundtrip (s : String) (v : Nat)
    (h : inet_pton s = some v) : inet_ntop v = s := by
  obtain ⟨data⟩ := s
  unfold inet_pton at h
  split at h
  case h_2 => cases h
  case h_1 p1 p2 p3 p4 heq =>
    cases g1 : parseOctet p1 with
    | none => rw [g1] at h; cases h
    | some o1 =>
    cases g2 : parseOctet p2 with
    | none => rw [g1, g2] at h; cases h
    | some o2 =>
    cases g3 : parseOctet p3 with
    | none => rw [g1, g2, g3] at h; cases h
    | some o3 =>
    cases g4 : parseOctet p4 with
    | none => rw [g1, g2, g3, g4] at h; cases h
    | some o4 =>
      rw [g1, g2, g3, g4] at h
      dsimp only at h
      injection h with h
      have b1 := parseOctet_le p1 o1 g1
      have b2 := parseOctet_le p2 o2 g2
      have b3 := parseOctet_le p3 o3 g3
      have b4 := parseOctet_le p4 o4 g4
      have hv1 : v % 256 = o1 := by omega
      have hv2 : v / 256 % 256 = o2 := by omega
      have hv3 : v / 65536 % 256 = o3 := by omega
      have hv4 : v / 16777216 % 256 = o4 := by omega
      unfold inet_ntop
      rw [hv1, hv2, hv3, hv4, renderOctet_parse p1 o1 g1,
          renderOctet_parse p2 o2 g2, renderOctet_parse p3 o3 g3,
          renderOctet_parse p4 o4 g4]
      have hj : joinDots [p1, p2, p3, p4] = data := by
        rw [← heq]
        exact joinDots_splitOnDot data
      rw [hj]

/-- Closed witness for the C9 round trip at the literal `10.0.0.1`. -/
theorem inet_pton_ntop_roundtrip_witness : inet_ntop 16777226 = "10.0.0.1" :=
  inet_pton_ntop_roundtrip "10.0.0.1" 16777226 (by decide)

theorem tun_alloc_unfold (env : TunEnv) (dev : String) (flags : Int)
    (s : TunState) :
    tun_alloc env dev flags s =
      if dev = "" then ⟨-22, s, [], []⟩
      else
        match env.openDev s.tun_dev with
        | .err e =>
          if s.retried = false ∧ e = 2 then
            let r := tun_allocAux env dev flags 1 ⟨true, "/dev/tun"⟩
            ⟨r.ret, r.state, s.tun_dev :: r.opens, r.closes⟩
          else ⟨-1, s, [s.tun_dev], []⟩
        | .ok fd =>
          let rv := env.ioctlSetIff fd (dev.take 15) flags
          if rv < 0 then ⟨rv, s, [s.tun_dev], [fd]⟩
          else ⟨(fd : Int), s, [s.tun_dev], []⟩ := rfl

theorem tun_allocAux_retried (env : TunEnv) (dev : String) (flags : Int)
    (fuel : Nat) (s : TunState) (h : s.retried = true) :
    tun_allocAux env dev flags (fuel + 1) s =
      tun_allocAux env dev flags 1 s := by
  cases henv : env.openDev s.tun_dev with
  | err e => simp [tun_allocAux, henv, h]
  | ok fd => simp [tun_allocAux, henv]

theorem tun_allocAux_state_retried (env : TunEnv) (dev : String)
    (flags : Int) (fuel : Nat) (s : TunState) (h : s.retried = true) :
    (tun_allocAux env dev flags (fuel + 1) s).state = s := by
  simp only [tun_allocAux]
  split_ifs with hdev
  · rfl
  · cases henv : env.openDev s.tun_dev with
    | err e => simp [h]
    | ok fd =>
      dsimp only
      split_ifs <;> rfl

theorem tun_runStates_retried (calls : List (TunEnv × String × Int)) :
    ∀ s : TunState, s.retried = true →
      pathChanges s (tun_runStates calls s) = 0 := by
  induction calls with
  | nil => intro s _; rfl
  | cons c rest ih =>
    intro s h
    have hst : (tun_alloc c.1 c.2.1 c.2.2 s).state = s :=
      tun_allocAux_state_retried c.1 c.2.1 c.2.2 1 s h
    simp only [tun_runStates, pathChanges, hst]
    simp [ih s h]

theorem tun_alloc_state_cases (env : TunEnv) (dev : String) (flags : Int)
    (s : TunState) :
    (tun_alloc env dev flags s).state = s ∨
      (s.retried = false ∧
        (tun_alloc env dev flags s).state = ⟨true, "/dev/tun"⟩) := by
  rw [tun_alloc_unfold]
  split_ifs with hdev
  · left; rfl
  · cases henv : env.openDev s.tun_dev with
    | err e =>
      dsimp only
      split_ifs with hcond
      · right
        refine ⟨hcond.1, ?_⟩
        exact tun_allocAux_state_retried env dev flags 0 ⟨true, "/dev/tun"⟩ rfl
      · left; rfl
    | ok fd =>
      dsimp only
      split_ifs <;> (left; rfl)

theorem pathChanges_le_one (calls : List (TunEnv × String × Int)) :
    ∀ s : TunState, pathChanges s (tun_runStates calls s) ≤ 1 := by
  induction calls with
  | nil => intro s; exact Nat.zero_le 1
  | cons c rest ih =>
    intro s
    rcases tun_alloc_state_cases c.1 c.2.1 c.2.2 s with hst | ⟨hr, hst⟩
    · simp only [tun_runStates, pathChanges, hst]
      simpa using ih s
    · simp only [tun_runStates, pathChanges, hst]
      have h0 : pathChanges ⟨true, "/dev/tun"⟩
          (tun_runStates rest ⟨true, "/dev/tun"⟩) = 0 :=
        tun_runStates_retried rest ⟨true, "/dev/tun"⟩ rfl
      rw [h0]
      split_ifs <;> omega

/-- C1: the prefix `raise_up_iface` derives for the netmask
`255.255.255.252` is 32, not the 30 the claim and the spec scenario state:
the shift loop counts the bit length of the parsed mask value, while the
number of set bits of the 32-bit network-order mask (the same in either
byte order) is 30.  The address line the code would emit is therefore
`10.0.0.1/32`. -/
theorem cidr_derivation_at_252 :
    (derive ⟨"teavpn0", "10.0.0.1", "255.255.255.252", 1500⟩).map Derived.cidr
        = some 32
    ∧ (inet_pton "255.255.255.252").map popCount32 = some 30
    ∧ (derive ⟨"teavpn0", "10.0.0.1", "255.255.255.252", 1500⟩).map
        Derived.u_ipv4 = some "10.0.0.1/32" := by decide

/-- C2: whenever the derivation succeeds, both command lines built by
`raise_up_iface` embed the interface name, the CIDR-annotated address and
the broadcast address only through `escapeshellarg`; the executed list is
either the first command alone or both, each exactly the escaped
template. -/
theorem raise_up_cmds_escaped (ex : String → Int) (iface : SrvIfaceCfg)
    (d : Derived) (h : derive iface = some d) :
    (raise_up_iface ex iface).cmds =
        ["/sbin/ip link set dev " ++ escapeshellarg iface.dev ++
          " up mtu " ++ toString iface.mtu]
    ∨ (raise_up_iface ex iface).cmds =
        ["/sbin/ip link set dev " ++ escapeshellarg iface.dev ++
          " up mtu " ++ toString iface.mtu,
         "/sbin/ip addr add dev " ++ escapeshellarg iface.dev ++ " " ++
          escapeshellarg d.u_ipv4 ++ " broadcast " ++
          escapeshellarg d.u_ipv4_broadcast] := by
  unfold raise_up_iface
  rw [h]
  dsimp only [simple_esc_arg]
  split_ifs with h1 h2
  · exact Or.inl rfl
  · exact Or.inr rfl
  · exact Or.inr rfl

/-- Closed witness for C2 at a concrete configuration and an accepting
command surface. -/
theorem raise_up_cmds_escaped_witness :
    (raise_up_iface (fun _ => 0) cfgA).cmds =
        ["/sbin/ip link set dev " ++ escapeshellarg cfgA.dev ++
          " up mtu " ++ toString cfgA.mtu]
    ∨ (raise_up_iface (fun _ => 0) cfgA).cmds =
        ["/sbin/ip link set dev " ++ escapeshellarg cfgA.dev ++
          " up mtu " ++ toString cfgA.mtu,
         "/sbin/ip addr add dev " ++ escapeshellarg cfgA.dev ++ " " ++
          escapeshellarg dA.u_ipv4 ++ " broadcast " ++
          escapeshellarg dA.u_ipv4_broadcast] :=
  raise_up_cmds_escaped (fun _ => 0) cfgA dA (by decide)

/-- C3: whenever both parses succeed, `raise_up_iface` computes the network
value as the bitwise AND of address and netmask and the broadcast value as
the bitwise OR of the network with the complemented netmask; at
`ipv4 = 10.0.0.1`, `netmask = 255.0.0.0` the rendered strings are
`10.0.0.0/8` and `10.255.255.255`. -/
theorem raise_up_network_broadcast (iface : SrvIfaceCfg) (d : Derived)
    (h : derive iface = some d) :
    inet_pton iface.ipv4 = some d.b_ipv4
    ∧ inet_pton iface.ipv4_netmask = some d.b_ipv4_netmask
    ∧ d.b_ipv4_network = Nat.land d.b_ipv4 d.b_ipv4_netmask
    ∧ d.b_ipv4_broadcast = Nat.lor d.b_ipv4_network (compl32 d.b_ipv4_netmask)
    ∧ (derive ⟨"teavpn0", "10.0.0.1", "255.0.0.0", 1500⟩).map
        (fun x => (x.u_ipv4_network, x.u_ipv4_broadcast))
        = some ("10.0.0.0/8", "10.255.255.255") := by
  unfold derive at h
  cases hm : inet_pton iface.ipv4_netmask with
  | none => rw [hm] at h; cases h
  | some bm =>
    rw [hm] at h
    dsimp only at h
    split_ifs at h
    cases ha : inet_pton iface.ipv4 with
    | none => rw [ha] at h; cases h
    | some ba =>
      rw [ha] at h
      dsimp only at h
      injection h with h
      subst h
      exact ⟨rfl, rfl, rfl, rfl, by decide⟩

/-- Closed witness for C3 at `ipv4 = 10.0.0.1`, `netmask = 255.0.0.0`. -/
theorem raise_up_network_broadcast_witness :
    inet_pton cfgA.ipv4 = some dA.b_ipv4
    ∧ inet_pton cfgA.ipv4_netmask = some dA.b_ipv4_netmask
    ∧ dA.b_ipv4_network = Nat.land dA.b_ipv4 dA.b_ipv4_netmask
    ∧ dA.b_ipv4_broadcast = Nat.lor dA.b_ipv4_network (compl32 dA.b_ipv4_netmask)
    ∧ (derive ⟨"teavpn0", "10.0.0.1", "255.0.0.0", 1500⟩).map
        (fun x => (x.u_ipv4_network, x.u_ipv4_broadcast))
        = some ("10.0.0.0/8", "10.255.255.255") :=
  raise_up_network_broadcast cfgA dA (by decide)

/-- C5: if the first external command (bring link up with MTU) reports a
negative status, `raise_up_iface` returns false having executed only that
command; the address-add command never runs. -/
theorem raise_up_first_cmd_fail_stops (ex : String → Int)
    (iface : SrvIfaceCfg) (d : Derived) (h : derive iface = some d)
    (hex : ex ("/sbin/ip link set dev " ++ escapeshellarg iface.dev ++
        " up mtu " ++ toString iface.mtu) < 0) :
    raise_up_iface ex iface =
      ⟨false,
       ["/sbin/ip link set dev " ++ escapeshellarg iface.dev ++
         " up mtu " ++ toString iface.mtu], iface⟩ := by
  unfold raise_up_iface
  rw [h]
  dsimp only [simple_esc_arg]
  rw [if_pos hex]

/-- Closed witness for C5: a command surface that rejects everything. -/
theorem raise_up_first_cmd_fail_stops_witness :
    raise_up_iface (fun _ => (-1 : Int)) cfgA =
      ⟨false,
       ["/sbin/ip link set dev " ++ escapeshellarg cfgA.dev ++
         " up mtu " ++ toString cfgA.mtu], cfgA⟩ :=
  raise_up_first_cmd_fail_stops (fun _ => (-1 : Int)) cfgA dA (by decide)
    (by decide)

/-- C6: for every kernel surface, flags value and static state, `tun_alloc`
on the empty interface name returns `-EINVAL` without opening any device
node and without touching the static state. -/
theorem tun_alloc_empty_name_einval (env : TunEnv) (flags : Int)
    (s : TunState) : tun_alloc env "" flags s = ⟨-22, s, [], []⟩ := by
  rw [tun_alloc_unfold]
  rw [if_pos rfl]

/-- C7: whenever the `TUNSETIFF` bind fails after the device node opened,
`tun_alloc` closes the opened descriptor (it is in the close list) and
returns the negative ioctl status. -/
theorem tun_alloc_ioctl_fail_closes_fd (env : TunEnv) (dev : String)
    (flags : Int) (s : TunState) (fd : Nat) (hdev : ¬dev = "")
    (hopen : env.openDev s.tun_dev = OpenRes.ok fd)
    (hio : env.ioctlSetIff fd (dev.take 15) flags < 0) :
    tun_alloc env dev flags s =
      ⟨env.ioctlSetIff fd (dev.take 15) flags, s, [s.tun_dev], [fd]⟩ := by
  rw [tun_alloc_unfold, if_neg hdev, hopen]
  dsimp only
  rw [if_pos hio]

/-- Closed witness for C7: the node opens as descriptor 5 and the bind is
rejected. -/
theorem tun_alloc_ioctl_fail_closes_fd_witness :
    tun_alloc ⟨fun _ => OpenRes.ok 5, fun _ _ _ => -1⟩ "tv0" 0 initTunState
      = ⟨-1, initTunState, ["/dev/net/tun"], [5]⟩ :=
  tun_alloc_ioctl_fail_closes_fd ⟨fun _ => OpenRes.ok 5, fun _ _ _ => -1⟩
    "tv0" 0 initTunState 5 (by decide) (by decide) (by decide)

/-- C4: across any sequence of `tun_alloc` calls the device-node path
switches at most once; the switch happens exactly on a primary-open
`ENOENT` with no prior fallback, and then the whole allocation is retried
once against the legacy path (the primary open prepended to the trace);
once `retried` is set the static state never changes again, so the legacy
path is used by all later calls; any other open failure returns the
negative descriptor with the state untouched.  The last two conjuncts run a
concrete surface with an absent primary node through both situations. -/
theorem tun_alloc_fallback_once :
    (∀ calls : List (TunEnv × String × Int),
      pathChanges initTunState (tun_runStates calls initTunState) ≤ 1)
    ∧ (∀ (env : TunEnv) (dev : String) (flags : Int) (s : TunState),
        s.retried = false → ¬dev = "" →
        env.openDev s.tun_dev = OpenRes.err 2 →
        tun_alloc env dev flags s =
          ⟨(tun_alloc env dev flags ⟨true, "/dev/tun"⟩).ret,
           (tun_alloc env dev flags ⟨true, "/dev/tun"⟩).state,
           s.tun_dev :: (tun_alloc env dev flags ⟨true, "/dev/tun"⟩).opens,
           (tun_alloc env dev flags ⟨true, "/dev/tun"⟩).closes⟩)
    ∧ (∀ (env : TunEnv) (dev : String) (flags : Int) (s : TunState),
        s.retried = true → (tun_alloc env dev flags s).state = s)
    ∧ (∀ (env : TunEnv) (dev : String) (flags : Int) (s : TunState)
        (e : Nat), ¬dev = "" → env.openDev s.tun_dev = OpenRes.err e →
        e ≠ 2 → tun_alloc env dev flags s = ⟨-1, s, [s.tun_dev], []⟩)
    ∧ tun_alloc envNoPrimary "tv0" 0 initTunState =
        ⟨3, ⟨true, "/dev/tun"⟩, ["/dev/net/tun", "/dev/tun"], []⟩
    ∧ tun_alloc envNoPrimary "tv0" 0 ⟨true, "/dev/tun"⟩ =
        ⟨3, ⟨true, "/dev/tun"⟩, ["/dev/tun"], []⟩ := by
  refine ⟨fun calls => pathChanges_le_one calls initTunState,
    ?_, ?_, ?_, by decide, by decide⟩
  · intro env dev flags s hr hdev hopen
    rw [tun_alloc_unfold, if_neg hdev, hopen]
    dsimp only
    rw [if_pos ⟨hr, rfl⟩]
    have hfuel := tun_allocAux_retried env dev flags 1 ⟨true, "/dev/tun"⟩ rfl
    rw [show tun_alloc env dev flags ⟨true, "/dev/tun"⟩ =
        tun_allocAux env dev flags 1 ⟨true, "/dev/tun"⟩ from hfuel]
  · intro env dev flags s hr
    exact tun_allocAux_state_retried env dev flags 1 s hr
  · intro env dev flags s e hdev hopen he
    rw [tun_alloc_unfold, if_neg hdev, hopen]
    dsimp only
    rw [if_neg]
    rintro ⟨-, h2⟩
    exact he h2

/-- C8 counterexample: a sixteen-character interface name is not rejected
with `-EINVAL`; `tun_alloc` opens the primary node and succeeds. -/
theorem tun_alloc_oversized_name_cex :
    15 < ("abcdefghijklmnop" : String).length
    ∧ (tun_alloc envOk3 "abcdefghijklmnop" 0 initTunState).ret = 3
    ∧ (tun_alloc envOk3 "abcdefghijklmnop" 0 initTunState).opens
        = ["/dev/net/tun"] := by decide

/-- C8 amended: `tun_alloc` rejects only the empty name; a name longer than
15 characters is not refused with `InvalidArgument` but silently truncated,
the device node is opened and the bind ioctl receives the first 15
characters of the name. -/
theorem tun_alloc_oversized_name_truncates (env : TunEnv) (dev : String)
    (flags : Int) (s : TunState) (fd : Nat) (hlen : 15 < dev.length)
    (hopen : env.openDev s.tun_dev = OpenRes.ok fd) :
    (tun_alloc env dev flags s).opens = [s.tun_dev]
    ∧ tun_alloc env dev flags s =
        (if env.ioctlSetIff fd (dev.take 15) flags < 0 then
          ⟨env.ioctlSetIff fd (dev.take 15) flags, s, [s.tun_dev], [fd]⟩
        else ⟨(fd : Int), s, [s.tun_dev], []⟩) := by
  have hdev : ¬dev = "" := by
    intro hd
    rw [hd] at hlen
    simp at hlen
  rw [tun_alloc_unfold, if_neg hdev, hopen]
  dsimp only
  exact ⟨by split_ifs <;> rfl, rfl⟩

/-- Closed witness for the amended C8 at a sixteen-character name. -/
theorem tun_alloc_oversized_name_truncates_witness :
    (tun_alloc envOk3 "abcdefghijklmnop" 0 initTunState).opens
        = ["/dev/net/tun"]
    ∧ tun_alloc envOk3 "abcdefghijklmnop" 0 initTunState =
        (if envOk3.ioctlSetIff 3 ("abcdefghijklmnop".take 15) 0 < 0 then
          ⟨envOk3.ioctlSetIff 3 ("abcdefghijklmnop".take 15) 0, initTunState,
           ["/dev/net/tun"], [3]⟩
        else ⟨(3 : Int), initTunState, ["/dev/net/tun"], []⟩) :=
  tun_alloc_oversized_name_truncates envOk3 "abcdefghijklmnop" 0
    initTunState 3 (by decide) (by decide)

/-- C10: `raise_up_iface` never changes the configuration struct: the
`dev`, `ipv4`, `ipv4_netmask` and `mtu` fields are the same before and
after the call, whatever the command surface answers. -/
theorem raise_up_iface_frame (ex : String → Int) (iface : SrvIfaceCfg) :
    (raise_up_iface ex iface).iface.dev = iface.dev
    ∧ (raise_up_iface ex iface).iface.ipv4 = iface.ipv4
    ∧ (raise_up_iface ex iface).iface.ipv4_netmask = iface.ipv4_netmask
    ∧ (raise_up_iface ex iface).iface.mtu = iface.mtu := by
  have hif : (raise_up_iface ex iface).iface = iface := by
    unfold raise_up_iface
    cases derive iface with
    | none => rfl
    | some d =>
      dsimp only
      split_ifs <;> rfl
  rw [hif]
  exact ⟨rfl, rfl, rfl, rfl⟩
